import Mathlib

/-!
Verification of the `ariwa` client library (src/AriwaClient.ts and its
utilities) against its natural-language specification.

The TypeScript source is shallowly embedded: JavaScript values decoded from
JSON are modelled by the inductive type `JVal`, the WebSocket message handler
`AriwaClient.handleMessage` by a function producing the ordered list of its
observable actions, the connection lifecycle by a step function on an explicit
client state, and the two HTTP API wrappers (`TopGGAPI`, `AriwaAPI`) by state
passing functions parameterised over a network oracle.
-/

namespace Ariwa

/-- A JavaScript runtime value as produced by `JSON.parse`, extended with
`undefined` for the value `undefined` that arises from property access on objects
lacking the key.  Numbers are modelled as integers (every numeric literal the
protocol uses is integral). -/
inductive JVal where
  | undefined : JVal
  | null : JVal
  | bool : Bool → JVal
  | num : Int → JVal
  | str : String → JVal
  | arr : List JVal → JVal
  | obj : List (String × JVal) → JVal

/-- First binding of a key in an association list (JS objects decoded from
JSON have unique keys, later duplicates having overwritten earlier ones at
parse time). -/
def findKey (k : String) : List (String × JVal) → Option JVal
  | [] => none
  | (k2, v) :: rest => if k2 = k then some v else findKey k rest

/-- JS property access `v[k]` for the plain data keys used by the client
(`op`, `d`, `ts`): on an object it is the bound value or `undefined`; on a
number, string, boolean or array none of these keys is an own or inherited
data property, so the result is `undefined`.  Never applied to `null` or
`undefined` (destructuring those throws; `handleMessage` models the throw
before any access). -/
def getField (v : JVal) (k : String) : JVal :=
  match v with
  | .obj fs => (findKey k fs).getD .undefined
  | _ => .undefined

/-- JS truthiness of a value (`if (ts)`). -/
def truthy : JVal → Bool
  | .undefined => false
  | .null => false
  | .bool b => b
  | .num n => n != 0
  | .str s => s != ""
  | .arr _ => true
  | .obj _ => true

/-- Own enumerable properties taken by object spread `{...d}`: the fields of
an object, the indexed characters of a string, the indexed elements of an
array, and nothing for the remaining primitives. -/
def spreadProps : JVal → List (String × JVal)
  | .obj fs => fs
  | .arr xs => xs.enum.map (fun p => (toString p.1, p.2))
  | .str s => s.data.enum.map (fun p => (toString p.1, JVal.str (String.mk [p.2])))
  | _ => []

/-- Assign property `ts` in a field list: overwrite in place when present,
append otherwise (JS property assignment order semantics). -/
def assignTs (fs : List (String × JVal)) (ts : JVal) : List (String × JVal) :=
  if fs.any (fun p => p.1 = "ts") then
    fs.map (fun p => if p.1 = "ts" then (p.1, ts) else p)
  else fs ++ [("ts", ts)]

/-- The object literal `{ ...d, ts }` from `handleMessage`. -/
def mergeTs (d ts : JVal) : JVal :=
  .obj (assignTs (spreadProps d) ts)

/-- An event emitted by `AriwaClient` while handling one inbound message. -/
inductive Emit where
  | ready : JVal → Emit
  | vote : JVal → Emit
  | test : JVal → Emit
  | reminder : JVal → Emit
  | unknownOp : JVal → JVal → Emit
  | error : Emit

/-- The `switch (op)` classifier of `AriwaClient.handleMessage`
(src/AriwaClient.ts lines 101-107): `3 → ready` with the bare payload,
`10/11/12 → vote/test/reminder` with `{ ...d, ts }`, anything else
`→ unknownOp` with the raw op value and payload. -/
def dispatch (op d ts : JVal) : Emit :=
  match op with
  | .num 3 => .ready d
  | .num 10 => .vote (mergeTs d ts)
  | .num 11 => .test (mergeTs d ts)
  | .num 12 => .reminder (mergeTs d ts)
  | _ => .unknownOp op d

/-- Modelled from the spec: the classifier as §8 of the spec words it, every
op code in {3,10,11,12} emitting its event "with the payload merged with any
marker field".  Differs from `dispatch` only at op 3. -/
def specDispatch (op d ts : JVal) : Emit :=
  match op with
  | .num 3 => .ready (mergeTs d ts)
  | .num 10 => .vote (mergeTs d ts)
  | .num 11 => .test (mergeTs d ts)
  | .num 12 => .reminder (mergeTs d ts)
  | _ => .unknownOp op d

/-- One observable action of `handleMessage`, in program order: an event
emission, the in-memory marker assignment, the durable-write call, or an
escaped exception (destructuring `null`). -/
inductive Action where
  | emit : Emit → Action
  | setMem : JVal → Action
  | persist : JVal → Action
  | throwTypeError : Action

/-- `AriwaClient.handleMessage` (src/AriwaClient.ts lines 90-113) as the
ordered list of its observable actions.  The argument is `none` when
`JSON.parse` threw (the handler emits `error` and returns), otherwise the
parsed value.  Destructuring `const { op, d, ts } = data` throws a TypeError
when `data` is `null` (or `undefined`), aborting the handler with no event;
otherwise the frame is classified and emitted, and when `ts` is truthy the
in-memory marker is assigned and, when a persist path is configured, the
durable write is issued. -/
def handleMessage (hasPersistPath : Bool) (msg : Option JVal) : List Action :=
  match msg with
  | none => [.emit .error]
  | some .null => [.throwTypeError]
  | some .undefined => [.throwTypeError]
  | some v =>
    let op := getField v "op"
    let d := getField v "d"
    let ts := getField v "ts"
    .emit (dispatch op d ts) ::
      (if truthy ts then
        .setMem ts :: (if hasPersistPath then [.persist ts] else [])
      else [])

/-- The events emitted during a list of actions, in order. -/
def emitsOf (acts : List Action) : List Emit :=
  acts.filterMap (fun a => match a with | .emit e => some e | _ => none)

/-! ### Connection lifecycle

The reconnection-relevant state of one `AriwaClient` and the event-loop
callbacks that mutate it (src/AriwaClient.ts lines 55-150).  Timer delays are
abstracted away: a scheduled `setTimeout(() => this._connect(), delay)` is a
pending timer that fires as a later event-loop turn. -/

/-- The mutable fields of `AriwaClient` that govern reconnection, plus two
observations: `pendingTimers` counts reconnect timers scheduled but not yet
fired (the code keeps no handle to them), and `connectCount` counts the
`_connect` invocations performed so far. -/
structure CState where
  wsExists : Bool
  wsOpen : Bool
  intentionalClose : Bool
  autoReconnect : Bool
  maxReconnectAttempts : Option Nat
  reconnectAttempts : Nat
  pendingTimers : Nat
  connectCount : Nat
  deriving DecidableEq, Repr

/-- `reconnectAttempts < maxReconnectAttempts`, where `none` models the
default `Infinity`. -/
def underMax (attempts : Nat) : Option Nat → Bool
  | none => true
  | some m => attempts < m

/-- One event-loop turn affecting the client: a caller's `connect()`, the
socket's `open` event, its `close` event with a code, the firing of a pending
reconnect timer, and a caller's `disconnect()`. -/
inductive CEvent where
  | connectCall : CEvent
  | openEvt : CEvent
  | closeEvt : Nat → CEvent
  | timerFire : CEvent
  | disconnectCall : CEvent
  deriving DecidableEq, Repr

/-- `AriwaClient._connect` (lines 62-70): replaces the socket with a fresh
opening one. -/
def doConnect (st : CState) : CState :=
  { st with wsExists := true, wsOpen := false, connectCount := st.connectCount + 1 }

/-- `AriwaClient.reconnect` (lines 115-120): increments the attempt counter
and schedules a `_connect` timer. -/
def doReconnect (st : CState) : CState :=
  { st with reconnectAttempts := st.reconnectAttempts + 1,
            pendingTimers := st.pendingTimers + 1 }

/-- The client's reaction to one event-loop turn:
* `connectCall` — `connect()` (lines 55-60) clears the intentional-close flag,
  zeroes the attempt counter and calls `_connect`;
* `openEvt` — the `open` handler (lines 72-76) zeroes the attempt counter;
* `closeEvt code` — the `close` handler (lines 80-85) schedules a reconnect
  exactly when the close was not intentional, auto-reconnect is on, the code
  differs from 1000 and the attempt counter is under the maximum;
* `timerFire` — a pending reconnect timer runs `_connect` unconditionally;
* `disconnectCall` — `disconnect()` (lines 122-150): with no open socket it
  just drops the socket reference and resolves; with an open socket it sets
  the intentional-close flag and requests a close (the resulting `closeEvt
  1000` arrives as its own later turn). -/
def step (st : CState) : CEvent → CState
  | .connectCall =>
    doConnect { st with intentionalClose := false, reconnectAttempts := 0 }
  | .openEvt =>
    if st.wsExists then { st with wsOpen := true, reconnectAttempts := 0 } else st
  | .closeEvt code =>
    let st2 := { st with wsOpen := false }
    if !st.intentionalClose && st.autoReconnect && code != 1000
        && underMax st.reconnectAttempts st.maxReconnectAttempts then
      doReconnect st2
    else st2
  | .timerFire =>
    if st.pendingTimers > 0 then
      doConnect { st with pendingTimers := st.pendingTimers - 1 }
    else st
  | .disconnectCall =>
    if !st.wsExists || !st.wsOpen then { st with wsExists := false }
    else { st with intentionalClose := true }

/-- Run a list of event-loop turns from a state. -/
def run (st : CState) (evts : List CEvent) : CState :=
  evts.foldl step st

/-- A freshly constructed client (src/AriwaClient.ts lines 41-53) before any
`connect()`: no socket, flags at their defaults. -/
def initState (auto : Bool) (maxAttempts : Option Nat) : CState :=
  { wsExists := false, wsOpen := false, intentionalClose := false,
    autoReconnect := auto, maxReconnectAttempts := maxAttempts,
    reconnectAttempts := 0, pendingTimers := 0, connectCount := 0 }

/-- The backoff delay computed by `AriwaClient.reconnect` for attempt number
`n` (the counter value after its increment) with jitter sample `j`:
`Math.min(initialDelay * 1.5 ** (n - 1), maxDelay) + j`, over ℚ. -/
def backoffDelay (base maxDelay : ℚ) (n : Nat) (j : ℚ) : ℚ :=
  min (base * (3 / 2) ^ (n - 1)) maxDelay + j

/-- `AriwaClient.reconnect` (lines 115-120) as a pure computation: from the
current attempt counter and a jitter sample `Math.random() * 1000 = j`, the
incremented counter and the delay it schedules. -/
def reconnectComp (attempts : Nat) (base maxDelay j : ℚ) : Nat × ℚ :=
  let n := attempts + 1
  (n, backoffDelay base maxDelay n j)

/-! ### String matching helpers

Character-list implementations of the string operations the wrappers use:
`String.prototype.includes`, and the two capture regexes
`/\/bots\/([^/]+)\/stats/` and `/\/user\/([^/]+)/`.  A greedy `[^/]+` group
always captures the whole maximal slash-free run at its position: any proper
nonempty group candidate is followed by a further non-slash character, so a
literal `/` can never match right after it and backtracking cannot shorten
the capture. -/

/-- `p` occurs at the head of `l`. -/
def hasPre : List Char → List Char → Bool
  | [], _ => true
  | _ :: _, [] => false
  | p :: ps, c :: cs => p == c && hasPre ps cs

/-- `p` occurs somewhere in `l` (`String.prototype.includes`). -/
def containsSub (p : List Char) : List Char → Bool
  | [] => hasPre p []
  | c :: cs => hasPre p (c :: cs) || containsSub p cs

/-- `String.prototype.endsWith`: `suff` is a suffix of `l`. -/
def hasSuff (suff l : List Char) : Bool :=
  hasPre suff.reverse l.reverse

/-- Split off the maximal run of non-`'/'` characters at the head. -/
def takeRun : List Char → List Char × List Char
  | [] => ([], [])
  | c :: cs =>
    if c = '/' then ([], c :: cs)
    else
      let pr := takeRun cs
      (c :: pr.1, pr.2)

/-- The regex `/\/bots\/([^/]+)\/stats/` matched at this position: literal
`/bots/`, a nonempty slash-free capture, then literal `/stats`. -/
def matchBotsAt (l : List Char) : Option (List Char) :=
  if hasPre "/bots/".data l then
    let pr := takeRun (l.drop 6)
    if pr.1 ≠ [] ∧ hasPre "/stats".data pr.2 then some pr.1 else none
  else none

/-- `path.match(/\/bots\/([^/]+)\/stats/)?.[1]`: the capture at the first
matching position. -/
def searchBots : List Char → Option (List Char)
  | [] => none
  | c :: cs =>
    match matchBotsAt (c :: cs) with
    | some r => some r
    | none => searchBots cs

/-- The regex `/\/user\/([^/]+)/` matched at this position. -/
def matchUserAt (l : List Char) : Option (List Char) :=
  if hasPre "/user/".data l then
    let pr := takeRun (l.drop 6)
    if pr.1 ≠ [] then some pr.1 else none
  else none

/-- `path.match(/\/user\/([^/]+)/)?.[1]`. -/
def searchUser : List Char → Option (List Char)
  | [] => none
  | c :: cs =>
    match matchUserAt (c :: cs) with
    | some r => some r
    | none => searchUser cs

/-! ### HTTP API wrappers

`TopGGAPI` and `AriwaAPI` (src/AriwaClient.ts lines 153-277 and the
AriwaAPI source) as state-passing functions.  The HTTP transport
(`safeFetchJSON`) is a parameter `net`; its URL/body serialisation is kept as
the request's components.  Each operation additionally reports whether it
attempted the network. -/

/-- Outcome of one transport request (`safeFetchJSON`): parsed JSON body, or
a message string (which embeds the status code text on HTTP failures). -/
inductive NetRes where
  | ok : JVal → NetRes
  | err : String → NetRes

/-- HTTP methods the wrappers use. -/
inductive Method where
  | get | post | patch
  deriving DecidableEq

/-- The transport oracle: path, method, query parameters and optional body to
the response. -/
def Net : Type := String → Method → List (String × String) → Option JVal → NetRes

/-- One cache slot: stored value and absolute expiry instant (ms). -/
structure CacheEntry where
  data : JVal
  expiry : Int

/-- First binding of a cache key (JS `Map.get`; keys are unique). -/
def cacheGet (k : String) : List (String × CacheEntry) → Option CacheEntry
  | [] => none
  | (k2, e) :: rest => if k2 = k then some e else cacheGet k rest

/-- JS `Map.set`: overwrite in place when the key is present, append
otherwise. -/
def cacheSet (k : String) (e : CacheEntry) :
    List (String × CacheEntry) → List (String × CacheEntry)
  | [] => [(k, e)]
  | (k2, e2) :: rest =>
    if k2 = k then (k2, e) :: rest else (k2, e2) :: cacheSet k e rest

/-- JS `Map.delete`: remove the key's binding if present. -/
def cacheDel (k : String) : List (String × CacheEntry) → List (String × CacheEntry)
  | [] => []
  | (k2, e2) :: rest => if k2 = k then rest else (k2, e2) :: cacheDel k rest

/-- `TopGGAPI.getCacheKey`: the path, plus for a present query a `?` and the
`k=v` pairs sorted by key and joined with `&`. -/
def getCacheKeyTG (path : String) (query : Option (List (String × String))) : String :=
  match query with
  | none => path
  | some q =>
    let sorted := q.mergeSort (fun a b => decide (a.1 ≤ b.1))
    path ++ "?" ++ String.intercalate "&" (sorted.map (fun p => p.1 ++ "=" ++ p.2))

/-- The mutable state of one `TopGGAPI` instance. -/
structure TopState where
  token : Option String
  cacheTTL : Int
  cache : List (String × CacheEntry)
  rateLimitReset : Option Int

/-- `new TopGGAPI(options?)`: token as given, TTL defaulted to 5 minutes,
empty cache, no rate-limit window. -/
def mkTop (token : Option String) (ttl : Option Int) : TopState :=
  { token := token, cacheTTL := ttl.getD (5 * 60 * 1000), cache := [], rateLimitReset := none }

/-- `TopGGAPI._fetch` (lines 173-208): a falsy (`undefined` or empty) token
short-circuits to the fixed error; a truthy, unelapsed rate-limit window
short-circuits to a rate-limited error; otherwise the transport runs, and an
error result whose message contains `429` starts a 60-second rate-limit
window and is replaced by the fixed rate-limit message.  The third component
records whether the transport was invoked. -/
def fetchTG (st : TopState) (now : Int) (net : Net) (path : String) (method : Method)
    (body : Option JVal) (query : Option (List (String × String))) :
    Except String JVal × TopState × Bool :=
  match st.token with
  | none => (.error "Top.gg token not provided", st, false)
  | some tok =>
    if tok = "" then (.error "Top.gg token not provided", st, false)
    else
      let limited := match st.rateLimitReset with
        | some r => r != 0 && now < r
        | none => false
      if limited then
        (.error ("Rate limited until " ++ toString (st.rateLimitReset.getD 0)), st, false)
      else
        match net path method (query.getD []) body with
        | .ok v => (.ok v, st, true)
        | .err msg =>
          if containsSub "429".data msg.data then
            (.error "Rate limit exceeded, retry later",
              { st with rateLimitReset := some (now + 60 * 1000) }, true)
          else (.error msg, st, true)

/-- `TopGGAPI.invalidateCache`. -/
def invalidateTG (st : TopState) (path : String)
    (query : Option (List (String × String)) := none) : TopState :=
  { st with cache := cacheDel (getCacheKeyTG path query) st.cache }

/-- `TopGGAPI._fetchWithCache` (lines 210-239): non-GET methods always go
through `_fetch`, and a successful POST to a `/stats` path drops the matched
bot's stats and detail cache entries; GET consults the cache first, serving a
live entry without the network and otherwise fetching and, on success,
refilling the entry with the configured TTL. -/
def fetchWithCacheTG (st : TopState) (now : Int) (net : Net) (path : String)
    (method : Method) (body : Option JVal) (query : Option (List (String × String))) :
    Except String JVal × TopState × Bool :=
  if method ≠ .get then
    let (r, st1, w) := fetchTG st now net path method body query
    match r with
    | .ok _ =>
      if method = .post ∧ hasSuff "/stats".data path.data then
        match searchBots path.data with
        | some bid =>
          let botId := String.mk bid
          (r, invalidateTG (invalidateTG st1 ("/bots/" ++ botId ++ "/stats")) ("/bots/" ++ botId), w)
        | none => (r, st1, w)
      else (r, st1, w)
    | .error _ => (r, st1, w)
  else
    let key := getCacheKeyTG path query
    match cacheGet key st.cache with
    | some e =>
      if e.expiry > now then (.ok e.data, st, false)
      else
        let (r, st1, w) := fetchTG st now net path method body query
        match r with
        | .ok v => (.ok v, { st1 with cache := cacheSet key ⟨v, now + st.cacheTTL⟩ st1.cache }, w)
        | .error m => (.error m, st1, w)
    | none =>
      let (r, st1, w) := fetchTG st now net path method body query
      match r with
      | .ok v => (.ok v, { st1 with cache := cacheSet key ⟨v, now + st.cacheTTL⟩ st1.cache }, w)
      | .error m => (.error m, st1, w)

/-- `TopGGAPI.postStats`. -/
def postStats (st : TopState) (now : Int) (net : Net) (botId : String) (stats : JVal) :
    Except String JVal × TopState × Bool :=
  fetchWithCacheTG st now net ("/bots/" ++ botId ++ "/stats") .post (some stats) none

/-- `TopGGAPI.getBots` (the options object is always passed, possibly empty). -/
def getBots (st : TopState) (now : Int) (net : Net) (options : List (String × String)) :
    Except String JVal × TopState × Bool :=
  fetchWithCacheTG st now net "/bots" .get none (some options)

/-- `TopGGAPI.getBot`. -/
def getBot (st : TopState) (now : Int) (net : Net) (botId : String) :
    Except String JVal × TopState × Bool :=
  fetchWithCacheTG st now net ("/bots/" ++ botId) .get none none

/-- `TopGGAPI.getVotes`. -/
def getVotes (st : TopState) (now : Int) (net : Net) (botId : String) :
    Except String JVal × TopState × Bool :=
  fetchWithCacheTG st now net ("/bots/" ++ botId ++ "/votes") .get none none

/-- `TopGGAPI.getStats`. -/
def getStats (st : TopState) (now : Int) (net : Net) (botId : String) :
    Except String JVal × TopState × Bool :=
  fetchWithCacheTG st now net ("/bots/" ++ botId ++ "/stats") .get none none

/-- `TopGGAPI.hasVoted`: maps the fetched payload's `voted` property through a
strict comparison with `1`, and re-wraps the inner error message unchanged. -/
def hasVoted (st : TopState) (now : Int) (net : Net) (botId userId : String) :
    Except String Bool × TopState × Bool :=
  let (r, st1, w) :=
    fetchWithCacheTG st now net ("/bots/" ++ botId ++ "/check") .get none
      (some [("userId", userId)])
  match r with
  | .ok v =>
    (.ok (match getField v "voted" with | .num n => n == 1 | _ => false), st1, w)
  | .error m => (.error m, st1, w)

/-- The mutable state of one `AriwaAPI` instance (the constructor rejects a
missing token, so the token is always present). -/
structure AriwaState where
  token : String
  cacheTTL : Int
  cache : List (String × CacheEntry)

/-- `AriwaAPI.getCacheKey`: the path itself. -/
def getCacheKeyA (path : String) : String := path

/-- `AriwaAPI.invalidateCache`. -/
def invalidateA (st : AriwaState) (path : String) : AriwaState :=
  { st with cache := cacheDel (getCacheKeyA path) st.cache }

/-- `AriwaAPI._fetchWithCache` (AriwaAPI source lines 319-344), built over a
`_fetch` that always hits the transport: non-GET methods always fetch, and a
successful call on a path containing `/user/` and ending in `/reminders`
drops the matched user's detail cache entry; GET consults the cache first as
in the companion wrapper. -/
def fetchWithCacheA (st : AriwaState) (now : Int) (net : Net) (path : String)
    (method : Method) (body : Option JVal) :
    Except String JVal × AriwaState × Bool :=
  if method ≠ .get then
    let r := net path method [] body
    match r with
    | .ok v =>
      if containsSub "/user/".data path.data ∧ hasSuff "/reminders".data path.data then
        match searchUser path.data with
        | some uid => (.ok v, invalidateA st ("/user/" ++ String.mk uid), true)
        | none => (.ok v, st, true)
      else (.ok v, st, true)
    | .err m => (.error m, st, true)
  else
    let key := getCacheKeyA path
    match cacheGet key st.cache with
    | some e =>
      if e.expiry > now then (.ok e.data, st, false)
      else
        match net path method [] body with
        | .ok v => (.ok v, { st with cache := cacheSet key ⟨v, now + st.cacheTTL⟩ st.cache }, true)
        | .err m => (.error m, st, true)
    | none =>
      match net path method [] body with
      | .ok v => (.ok v, { st with cache := cacheSet key ⟨v, now + st.cacheTTL⟩ st.cache }, true)
      | .err m => (.error m, st, true)

/-- `AriwaAPI.getEntity`. -/
def getEntity (st : AriwaState) (now : Int) (net : Net) :
    Except String JVal × AriwaState × Bool :=
  fetchWithCacheA st now net "/entity" .get none

/-- `AriwaAPI.getUser`. -/
def getUser (st : AriwaState) (now : Int) (net : Net) (userId : String) :
    Except String JVal × AriwaState × Bool :=
  fetchWithCacheA st now net ("/user/" ++ userId) .get none

/-- `AriwaAPI.setUserReminders`: an `undefined` flag is rejected before any
network activity, otherwise a PATCH on the user's reminders path. -/
def setUserReminders (st : AriwaState) (now : Int) (net : Net) (userId : String)
    (enabled : Option Bool) : Except String JVal × AriwaState × Bool :=
  match enabled with
  | none => (.error "remindersEnabled must be true or false", st, false)
  | some b =>
    fetchWithCacheA st now net ("/user/" ++ userId ++ "/reminders") .patch
      (some (.obj [("enable", .bool b)]))

/-! ### Resumption marker session -/

/-- The in-memory `lastMessageTimestamp` after a list of handler actions. -/
def memAfter (mem : Option JVal) (acts : List Action) : Option JVal :=
  acts.foldl (fun m a => match a with | .setMem v => some v | _ => m) mem

/-- The in-memory marker after handling a sequence of inbound messages
(each `none` when its `JSON.parse` threw, otherwise the parsed value). -/
def runMarker (hp : Bool) (mem : Option JVal) (msgs : List (Option JVal)) : Option JVal :=
  msgs.foldl (fun m msg => memAfter m (handleMessage hp msg)) mem

/-- The marker a single inbound message contributes: the `ts` field of a
successfully parsed, destructurable value, when truthy. -/
def tsOf (msg : Option JVal) : Option JVal :=
  match msg with
  | none => none
  | some .null => none
  | some .undefined => none
  | some v => if truthy (getField v "ts") then some (getField v "ts") else none

/-- The truthy markers observed over a message sequence, in order. -/
def obsTs (msgs : List (Option JVal)) : List JVal :=
  msgs.filterMap tsOf

/-- The last element of a list, if any. -/
def lastOf {α : Type} : List α → Option α
  | [] => none
  | x :: rest => (lastOf rest).or (some x)

/-- The value a cache serves for a key at an instant: the stored data exactly
when an entry exists and `now < expiry` (the guard `cached && cached.expiry >
Date.now()` both wrappers use). -/
def liveEntry (cache : List (String × CacheEntry)) (key : String) (now : Int) : Option JVal :=
  match cacheGet key cache with
  | some e => if e.expiry > now then some e.data else none
  | none => none

/-! ## Helper lemmas -/

theorem hasPre_append (p l : List Char) : hasPre p (p ++ l) = true := by
  induction p with
  | nil => rfl
  | cons c cs ih => simp [hasPre, ih]

theorem emitsOf_shape (e : Emit) (c hp : Bool) (ts : JVal) :
    emitsOf (.emit e :: (if c then .setMem ts :: (if hp then [.persist ts] else []) else [])) =
      [e] := by
  cases c <;> cases hp <;> rfl

theorem emitsOf_handleMessage (hp : Bool) (v : JVal) (hv : v ≠ .null) (hv2 : v ≠ .undefined) :
    emitsOf (handleMessage hp (some v)) =
      [dispatch (getField v "op") (getField v "d") (getField v "ts")] := by
  cases v with
  | undefined => exact absurd rfl hv2
  | null => exact absurd rfl hv
  | bool b => exact emitsOf_shape _ _ _ _
  | num n => exact emitsOf_shape _ _ _ _
  | str s => exact emitsOf_shape _ _ _ _
  | arr xs => exact emitsOf_shape _ _ _ _
  | obj fs => exact emitsOf_shape _ _ _ _

theorem dispatch_ne_error (op d ts : JVal) : dispatch op d ts ≠ .error := by
  unfold dispatch
  split <;> simp

/-! ## Claims -/

/-- C1 (counterexample): at op code 3 the code emits `ready` with the bare
payload `d`, not the payload merged with the marker field that the claim (and
spec §8) describes for all four op codes. -/
theorem C1_ready_marker_not_merged :
    dispatch (.num 3) (.obj [("user", .str "u")]) (.num 7) =
      .ready (.obj [("user", .str "u")]) ∧
    specDispatch (.num 3) (.obj [("user", .str "u")]) (.num 7) =
      .ready (.obj [("user", .str "u"), ("ts", .num 7)]) ∧
    dispatch (.num 3) (.obj [("user", .str "u")]) (.num 7) ≠
      specDispatch (.num 3) (.obj [("user", .str "u")]) (.num 7) := by
  refine ⟨rfl, rfl, ?_⟩
  simp [dispatch, specDispatch, mergeTs, assignTs, spreadProps]

/-- C1 (amended): every inbound message that parses as JSON and survives
destructuring produces exactly one event determined by the op code: op 3
emits `ready` with the bare frame payload (the marker is not merged), ops 10,
11, 12 emit `vote`, `test`, `reminder` with the payload merged with the
marker field, and any other op value emits exactly one `unknownOp` carrying
the raw code and the payload. -/
theorem C1_classification (hp : Bool) (v : JVal) (hv : v ≠ .null) (hv2 : v ≠ .undefined) :
    emitsOf (handleMessage hp (some v)) =
      [dispatch (getField v "op") (getField v "d") (getField v "ts")] ∧
    (∀ d ts, dispatch (.num 3) d ts = .ready d) ∧
    (∀ d ts, dispatch (.num 10) d ts = .vote (mergeTs d ts)) ∧
    (∀ d ts, dispatch (.num 11) d ts = .test (mergeTs d ts)) ∧
    (∀ d ts, dispatch (.num 12) d ts = .reminder (mergeTs d ts)) ∧
    (∀ op d ts, (∀ n : Int, op = .num n → n ≠ 3 ∧ n ≠ 10 ∧ n ≠ 11 ∧ n ≠ 12) →
      dispatch op d ts = .unknownOp op d) := by
  refine ⟨emitsOf_handleMessage hp v hv hv2, fun d ts => rfl, fun d ts => rfl,
    fun d ts => rfl, fun d ts => rfl, ?_⟩
  intro op d ts h
  cases op with
  | num n =>
    obtain ⟨h3, h10, h11, h12⟩ := h n rfl
    simp [dispatch, h3, h10, h11, h12]
  | undefined => rfl
  | null => rfl
  | bool b => rfl
  | str s => rfl
  | arr xs => rfl
  | obj fs => rfl

/-- Witness for C1 on a concrete vote frame with a marker. -/
theorem C1_classification_witness :
    (JVal.obj [("op", .num 10), ("d", .obj [("u", .str "x")]), ("ts", .num 9)] ≠ .null) ∧
    (JVal.obj [("op", .num 10), ("d", .obj [("u", .str "x")]), ("ts", .num 9)] ≠ .undefined) ∧
    emitsOf (handleMessage true
        (some (.obj [("op", .num 10), ("d", .obj [("u", .str "x")]), ("ts", .num 9)]))) =
      [.vote (.obj [("u", .str "x"), ("ts", .num 9)])] := by
  have h := C1_classification true
    (.obj [("op", .num 10), ("d", .obj [("u", .str "x")]), ("ts", .num 9)])
    (by simp) (by simp)
  exact ⟨by simp, by simp, by rw [h.1]; rfl⟩

/-- C10 (counterexample): a message whose body is the valid JSON text `null`
is not dispatched as `unknownOp` — destructuring `null` throws a TypeError
and the handler produces no event at all. -/
theorem C10_null_message_throws :
    handleMessage true (some .null) = [.throwTypeError] ∧
    emitsOf (handleMessage true (some .null)) = [] := ⟨rfl, rfl⟩

/-- C10 (amended): an `error` event is emitted for an inbound message exactly
when it fails to parse as JSON; valid JSON other than `null` is never a
protocol fault — in particular a value without an `op` property (a bare
number, string, boolean, array, or an object lacking `op`) is dispatched as a
single `unknownOp` event whose op code is `undefined` and whose payload is
whatever the `d` property destructures to; JSON `null` instead aborts the
handler with a thrown TypeError and no event. -/
theorem C10_error_only_on_parse_failure (hp : Bool) (v : JVal)
    (hv : v ≠ .null) (hv2 : v ≠ .undefined) :
    handleMessage hp none = [.emit .error] ∧
    Emit.error ∉ emitsOf (handleMessage hp (some v)) ∧
    (getField v "op" = .undefined →
      emitsOf (handleMessage hp (some v)) = [.unknownOp .undefined (getField v "d")]) := by
  refine ⟨rfl, ?_, ?_⟩
  · rw [emitsOf_handleMessage hp v hv hv2]
    simp only [List.mem_singleton]
    exact fun h => dispatch_ne_error _ _ _ h.symm
  · intro hop
    rw [emitsOf_handleMessage hp v hv hv2, hop]
    rfl

/-- Witness for C10 on a bare-number message. -/
theorem C10_witness_bare_number :
    (JVal.num 5 ≠ .null) ∧ (JVal.num 5 ≠ .undefined) ∧
    getField (.num 5) "op" = .undefined ∧
    emitsOf (handleMessage true (some (.num 5))) = [.unknownOp .undefined .undefined] := by
  have h := C10_error_only_on_parse_failure true (.num 5) (by simp) (by simp)
  exact ⟨by simp, by simp, rfl, h.2.2 rfl⟩

theorem memAfter_shape (mem : Option JVal) (e : Emit) (c hp : Bool) (ts : JVal) :
    memAfter mem
      (.emit e :: (if c then .setMem ts :: (if hp then [.persist ts] else []) else [])) =
      ((if c then some ts else none).or mem) := by
  cases c <;> cases hp <;> rfl

theorem memAfter_handleMessage (hp : Bool) (mem : Option JVal) (msg : Option JVal) :
    memAfter mem (handleMessage hp msg) = (tsOf msg).or mem := by
  match msg with
  | none => rfl
  | some .null => rfl
  | some .undefined => rfl
  | some (.bool b) => exact memAfter_shape mem _ _ hp _
  | some (.num n) => exact memAfter_shape mem _ _ hp _
  | some (.str s) => exact memAfter_shape mem _ _ hp _
  | some (.arr xs) => exact memAfter_shape mem _ _ hp _
  | some (.obj fs) => exact memAfter_shape mem _ _ hp _

theorem obsTs_cons_none (m : Option JVal) (rest : List (Option JVal))
    (h : tsOf m = none) : obsTs (m :: rest) = obsTs rest := by
  simp [obsTs, List.filterMap_cons, h]

theorem obsTs_cons_some (m : Option JVal) (rest : List (Option JVal)) (t : JVal)
    (h : tsOf m = some t) : obsTs (m :: rest) = t :: obsTs rest := by
  simp [obsTs, List.filterMap_cons, h]

theorem runMarker_eq (hp : Bool) (msgs : List (Option JVal)) :
    ∀ mem, runMarker hp mem msgs = (lastOf (obsTs msgs)).or mem := by
  induction msgs with
  | nil => intro mem; rfl
  | cons m rest ih =>
    intro mem
    have h1 : runMarker hp mem (m :: rest) =
        runMarker hp (memAfter mem (handleMessage hp m)) rest := rfl
    rw [h1, ih, memAfter_handleMessage]
    cases htm : tsOf m with
    | none => rw [obsTs_cons_none m rest htm]; rfl
    | some t =>
      rw [obsTs_cons_some m rest t htm]
      show (lastOf (obsTs rest)).or ((some t).or mem) =
        ((lastOf (obsTs rest)).or (some t)).or mem
      rw [Option.or_assoc]

theorem lastOf_mem {α : Type} (l : List α) (x : α) (h : lastOf l = some x) : x ∈ l := by
  induction l with
  | nil => exact absurd h (by simp [lastOf])
  | cons y rest ih =>
    rw [lastOf] at h
    cases hr : lastOf rest with
    | none => rw [hr] at h; simp at h; simp [h]
    | some z => rw [hr] at h; simp at h; subst h; exact List.mem_cons_of_mem _ (ih hr)

theorem lastOf_cons_some {α : Type} (y : α) (l : List α) : ∃ z, lastOf (y :: l) = some z := by
  rw [lastOf]
  cases lastOf l with
  | none => exact ⟨y, rfl⟩
  | some z => exact ⟨z, rfl⟩

theorem chain_le_lastOf (l : List Int) (hc : List.Chain' (· ≤ ·) l) :
    ∀ a ∈ l, ∀ b, lastOf l = some b → a ≤ b := by
  induction l with
  | nil => intro a ha; exact absurd ha (by simp)
  | cons x rest ih =>
    intro a ha b hb
    cases rest with
    | nil =>
      simp [lastOf] at hb
      simp at ha
      omega
    | cons y rest2 =>
      obtain ⟨z, hz⟩ := lastOf_cons_some y rest2
      have hb2 : lastOf (x :: y :: rest2) = some z := by
        rw [lastOf, hz]; rfl
      rw [hb2] at hb
      injection hb with hbz
      rw [List.chain'_cons] at hc
      obtain ⟨hxy, hc2⟩ := hc
      rcases List.mem_cons.mp ha with h | h
      · subst h
        have hy : y ≤ z := ih hc2 y (by simp) z hz
        omega
      · have := ih hc2 a h z hz
        omega

theorem lastOf_map_num (ints : List Int) :
    lastOf (ints.map JVal.num) = (lastOf ints).map JVal.num := by
  induction ints with
  | nil => rfl
  | cons x rest ih =>
    show (lastOf (rest.map JVal.num)).or (some (JVal.num x)) =
      ((lastOf rest).or (some x)).map JVal.num
    rw [ih]
    cases lastOf rest <;> rfl

theorem persist_in_shape (e : Emit) (c hp : Bool) (ts v : JVal)
    (h : Action.persist v ∈
      (Action.emit e :: (if c then .setMem ts :: (if hp then [.persist ts] else []) else []))) :
    ∃ pre suf,
      (Action.emit e :: (if c then .setMem ts :: (if hp then [.persist ts] else []) else []))
        = pre ++ .persist v :: suf ∧ Action.setMem v ∈ pre := by
  cases c with
  | false => simp at h
  | true =>
    cases hp with
    | false => simp at h
    | true =>
      simp at h
      refine ⟨[.emit e, .setMem ts], [], ?_, ?_⟩
      · rw [h]; simp
      · rw [h]; simp

theorem fetchTG_no_token (st : TopState) (now : Int) (net : Net) (path : String)
    (method : Method) (body : Option JVal) (query : Option (List (String × String)))
    (htok : st.token = none) :
    fetchTG st now net path method body query =
      (.error "Top.gg token not provided", st, false) := by
  unfold fetchTG
  rw [htok]

theorem fetchWithCacheTG_no_token (st : TopState) (now : Int) (net : Net) (path : String)
    (method : Method) (body : Option JVal) (query : Option (List (String × String)))
    (htok : st.token = none) (hc : st.cache = []) :
    fetchWithCacheTG st now net path method body query =
      (.error "Top.gg token not provided", st, false) := by
  have hf := fetchTG_no_token st now net path method body query htok
  unfold fetchWithCacheTG
  rw [hf, hc]
  cases method <;> simp [cacheGet]

/-- C5: on a `TopGGAPI` constructed without a token the cache starts empty,
and from any tokenless state with an empty cache (the only reachable shape,
since only successful fetches fill the cache) every API method returns the
exact failure `"Top.gg token not provided"`, leaves the state untouched, and
never attempts the network. -/
theorem C5_no_token_short_circuit (st : TopState) (now : Int) (net : Net)
    (htok : st.token = none) (hc : st.cache = []) :
    (∀ ttl, (mkTop none ttl).token = none ∧ (mkTop none ttl).cache = []) ∧
    (∀ botId stats, postStats st now net botId stats =
      (.error "Top.gg token not provided", st, false)) ∧
    (∀ options, getBots st now net options =
      (.error "Top.gg token not provided", st, false)) ∧
    (∀ botId, getBot st now net botId =
      (.error "Top.gg token not provided", st, false)) ∧
    (∀ botId, getVotes st now net botId =
      (.error "Top.gg token not provided", st, false)) ∧
    (∀ botId, getStats st now net botId =
      (.error "Top.gg token not provided", st, false)) ∧
    (∀ botId userId, hasVoted st now net botId userId =
      (.error "Top.gg token not provided", st, false)) := by
  refine ⟨fun ttl => ⟨rfl, rfl⟩, ?_, ?_, ?_, ?_, ?_, ?_⟩
  · intro botId stats
    exact fetchWithCacheTG_no_token st now net _ _ _ _ htok hc
  · intro options
    exact fetchWithCacheTG_no_token st now net _ _ _ _ htok hc
  · intro botId
    exact fetchWithCacheTG_no_token st now net _ _ _ _ htok hc
  · intro botId
    exact fetchWithCacheTG_no_token st now net _ _ _ _ htok hc
  · intro botId
    exact fetchWithCacheTG_no_token st now net _ _ _ _ htok hc
  · intro botId userId
    unfold hasVoted
    rw [fetchWithCacheTG_no_token st now net _ _ _ _ htok hc]

/-- Witness for C5 on a freshly constructed tokenless wrapper. -/
theorem C5_no_token_witness :
    (mkTop none none).token = none ∧ (mkTop none none).cache = [] ∧
    getBot (mkTop none none) 0 (fun _ _ _ _ => .err "unreachable") "264811613708746752" =
      (.error "Top.gg token not provided", mkTop none none, false) := by
  have h := C5_no_token_short_circuit (mkTop none none) 0
    (fun _ _ _ _ => .err "unreachable") rfl rfl
  exact ⟨rfl, rfl, h.2.2.2.1 "264811613708746752"⟩

theorem fetchTG_rate_limited (st : TopState) (now : Int) (net : Net) (path : String)
    (method : Method) (body : Option JVal) (query : Option (List (String × String)))
    (tok : String) (r : Int) (htok : st.token = some tok) (htne : tok ≠ "")
    (hr : st.rateLimitReset = some r) (hr0 : r ≠ 0) (hnow : now < r) :
    fetchTG st now net path method body query =
      (.error ("Rate limited until " ++ toString r), st, false) := by
  unfold fetchTG
  rw [htok, hr]
  simp [htne, hr0, hnow]

theorem fetchWithCacheTG_window_miss (st : TopState) (now : Int) (net : Net) (path : String)
    (method : Method) (body : Option JVal) (query : Option (List (String × String)))
    (tok : String) (r : Int) (htok : st.token = some tok) (htne : tok ≠ "")
    (hr : st.rateLimitReset = some r) (hr0 : r ≠ 0) (hnow : now < r)
    (hlive : liveEntry st.cache (getCacheKeyTG path query) now = none) :
    fetchWithCacheTG st now net path method body query =
      (.error ("Rate limited until " ++ toString r), st, false) := by
  have hf := fetchTG_rate_limited st now net path method body query tok r htok htne hr hr0 hnow
  unfold fetchWithCacheTG
  rw [hf]
  by_cases hm : method = Method.get
  · subst hm
    unfold liveEntry at hlive
    cases hcg : cacheGet (getCacheKeyTG path query) st.cache with
    | none => simp [hcg]
    | some e =>
      rw [hcg] at hlive
      by_cases hex : e.expiry > now
      · simp [hex] at hlive
      · simp [hcg, hex]
  · simp [hm]

theorem fetchWithCacheTG_window_flag (st : TopState) (now : Int) (net : Net) (path : String)
    (method : Method) (body : Option JVal) (query : Option (List (String × String)))
    (tok : String) (r : Int) (htok : st.token = some tok) (htne : tok ≠ "")
    (hr : st.rateLimitReset = some r) (hr0 : r ≠ 0) (hnow : now < r) :
    (fetchWithCacheTG st now net path method body query).2.2 = false := by
  have hf := fetchTG_rate_limited st now net path method body query tok r htok htne hr hr0 hnow
  unfold fetchWithCacheTG
  rw [hf]
  by_cases hm : method = Method.get
  · subst hm
    cases hcg : cacheGet (getCacheKeyTG path query) st.cache with
    | none => simp [hcg]
    | some e => by_cases hex : e.expiry > now <;> simp [hcg, hex]
  · simp [hm]

theorem fetchTG_after_window (st : TopState) (now2 : Int) (net : Net) (path : String)
    (method : Method) (body : Option JVal) (query : Option (List (String × String)))
    (tok : String) (r : Int) (htok : st.token = some tok) (htne : tok ≠ "")
    (hr : st.rateLimitReset = some r) (hge : r ≤ now2) :
    (fetchTG st now2 net path method body query).2.2 = true := by
  unfold fetchTG
  rw [htok, hr]
  have hn : ¬ (now2 < r) := not_lt.mpr hge
  simp [htne, hn]
  cases hnet : net path method (query.getD []) body with
  | ok v => simp [hnet]
  | err msg => by_cases h429 : containsSub "429".data msg.data <;> simp [hnet, h429]

/-- C6 (counterexample): inside the rate-limit cooldown window a GET whose
cache entry is still live returns the cached success, not an immediate
failure — the claim's "every call issued within the window returns an
immediate failure result" is false. -/
theorem C6_cache_hit_inside_cooldown :
    ((10 : Int) < 50) ∧
    getBot { token := some "t", cacheTTL := 300000,
             cache := [("/bots/1", ⟨.num 42, 100⟩)], rateLimitReset := some 50 }
        10 (fun _ _ _ _ => .err "boom") "1" =
      (.ok (.num 42),
        { token := some "t", cacheTTL := 300000,
          cache := [("/bots/1", ⟨.num 42, 100⟩)], rateLimitReset := some 50 }, false) :=
  ⟨by norm_num, rfl⟩

/-- C6 (amended): a transport error whose message reports status 429 starts a
60-second cooldown window; within the window no call attempts the network —
any call not served from a live cache entry returns an immediate failure
result (and `_fetch` itself always fails immediately) — and once the window
has elapsed the transport is attempted again. -/
theorem C6_rate_limit_window (st : TopState) (now now2 : Int) (net : Net) (tok : String)
    (r : Int) (htok : st.token = some tok) (htne : tok ≠ "")
    (hr : st.rateLimitReset = some r) (hr0 : r ≠ 0) (hnow : now < r) (hge : r ≤ now2) :
    (∀ (st0 : TopState) (n0 : Int) (net0 : Net) path method body query msg,
      st0.token = some tok → st0.rateLimitReset = none →
      net0 path method (query.getD []) body = .err msg →
      containsSub "429".data msg.data = true →
      fetchTG st0 n0 net0 path method body query =
        (.error "Rate limit exceeded, retry later",
          { st0 with rateLimitReset := some (n0 + 60 * 1000) }, true)) ∧
    (∀ path method body query, fetchTG st now net path method body query =
      (.error ("Rate limited until " ++ toString r), st, false)) ∧
    (∀ path method body query,
      (fetchWithCacheTG st now net path method body query).2.2 = false) ∧
    (∀ path method body query,
      liveEntry st.cache (getCacheKeyTG path query) now = none →
      fetchWithCacheTG st now net path method body query =
        (.error ("Rate limited until " ++ toString r), st, false)) ∧
    (∀ path method body query,
      (fetchTG st now2 net path method body query).2.2 = true) := by
  refine ⟨?_,
    fun path method body query =>
      fetchTG_rate_limited st now net path method body query tok r htok htne hr hr0 hnow,
    fun path method body query =>
      fetchWithCacheTG_window_flag st now net path method body query tok r htok htne hr hr0 hnow,
    fun path method body query hl =>
      fetchWithCacheTG_window_miss st now net path method body query tok r htok htne hr hr0 hnow hl,
    fun path method body query =>
      fetchTG_after_window st now2 net path method body query tok r htok htne hr hge⟩
  intro st0 n0 net0 path method body query msg h1 h2 hnet h429
  unfold fetchTG
  rw [h1, h2, hnet]
  simp [htne, h429]

/-- Witness for C6 on a concrete state with a window `[.., 50)`, a call at
time 10 inside it and one at time 60 after it. -/
theorem C6_rate_limit_window_witness :
    ({ token := some "t", cacheTTL := 300000, cache := [], rateLimitReset := some 50 } :
        TopState).token = some "t" ∧
    ("t" : String) ≠ "" ∧
    ((50 : Int) ≠ 0) ∧ ((10 : Int) < 50) ∧ ((50 : Int) ≤ 60) ∧
    fetchWithCacheTG { token := some "t", cacheTTL := 300000, cache := [], rateLimitReset := some 50 }
        10 (fun _ _ _ _ => .err "x") "/bots/1" .get none none =
      (.error ("Rate limited until " ++ toString (50 : Int)),
        { token := some "t", cacheTTL := 300000, cache := [], rateLimitReset := some 50 },
        false) ∧
    (fetchTG { token := some "t", cacheTTL := 300000, cache := [], rateLimitReset := some 50 }
        60 (fun _ _ _ _ => .err "x") "/bots/1" .get none none).2.2 = true := by
  have h := C6_rate_limit_window
    { token := some "t", cacheTTL := 300000, cache := [], rateLimitReset := some 50 }
    10 60 (fun _ _ _ _ => .err "x") "t" 50 rfl (by decide) rfl (by decide) (by decide)
    (by decide)
  exact ⟨rfl, by decide, by decide, by decide, by decide,
    h.2.2.2.1 "/bots/1" .get none none rfl,
    h.2.2.2.2 "/bots/1" .get none none⟩

theorem cacheGet_cacheSet_self (c : List (String × CacheEntry)) (k : String) (e : CacheEntry) :
    cacheGet k (cacheSet k e c) = some e := by
  induction c with
  | nil => simp [cacheGet, cacheSet]
  | cons p rest ih =>
    by_cases hk : p.1 = k
    · simp [cacheSet, cacheGet, hk]
    · simp [cacheSet, cacheGet, hk, ih]

theorem liveEntry_roundtrip (cache : List (String × CacheEntry)) (k : String) (v : JVal)
    (t ttl t2 : Int) :
    liveEntry (cacheSet k ⟨v, t + ttl⟩ cache) k t2 =
      if t2 < t + ttl then some v else none := by
  unfold liveEntry
  rw [cacheGet_cacheSet_self]

theorem fetchWithCacheTG_hit (st : TopState) (now : Int) (net : Net) (path : String)
    (body : Option JVal) (query : Option (List (String × String))) (v : JVal)
    (h : liveEntry st.cache (getCacheKeyTG path query) now = some v) :
    fetchWithCacheTG st now net path .get body query = (.ok v, st, false) := by
  unfold fetchWithCacheTG
  unfold liveEntry at h
  cases hcg : cacheGet (getCacheKeyTG path query) st.cache with
  | none => rw [hcg] at h; exact absurd h (by simp)
  | some e =>
    rw [hcg] at h
    by_cases hex : e.expiry > now
    · simp [hex] at h
      simp [hcg, hex, h]
    · simp [hex] at h

theorem fetchWithCacheTG_miss (st : TopState) (now : Int) (net : Net) (path : String)
    (body : Option JVal) (query : Option (List (String × String)))
    (h : liveEntry st.cache (getCacheKeyTG path query) now = none) :
    (fetchWithCacheTG st now net path .get body query).1 =
      (fetchTG st now net path .get body query).1 ∧
    (fetchWithCacheTG st now net path .get body query).2.2 =
      (fetchTG st now net path .get body query).2.2 := by
  unfold fetchWithCacheTG
  unfold liveEntry at h
  rcases hF : fetchTG st now net path .get body query with ⟨r, st1, w⟩
  cases hcg : cacheGet (getCacheKeyTG path query) st.cache with
  | none => rw [hcg] at h; cases r <;> simp [hcg, hF]
  | some e =>
    rw [hcg] at h
    by_cases hex : e.expiry > now
    · simp [hex] at h
    · cases r <;> simp [hcg, hex, hF]

theorem fetchWithCacheA_hit (st : AriwaState) (now : Int) (net : Net) (path : String)
    (body : Option JVal) (v : JVal)
    (h : liveEntry st.cache (getCacheKeyA path) now = some v) :
    fetchWithCacheA st now net path .get body = (.ok v, st, false) := by
  unfold fetchWithCacheA
  unfold liveEntry at h
  cases hcg : cacheGet (getCacheKeyA path) st.cache with
  | none => rw [hcg] at h; exact absurd h (by simp)
  | some e =>
    rw [hcg] at h
    by_cases hex : e.expiry > now
    · simp [hex] at h
      simp [hcg, hex, h]
    · simp [hex] at h

theorem fetchWithCacheA_miss (st : AriwaState) (now : Int) (net : Net) (path : String)
    (body : Option JVal)
    (h : liveEntry st.cache (getCacheKeyA path) now = none) :
    (fetchWithCacheA st now net path .get body).2.2 = true := by
  unfold fetchWithCacheA
  unfold liveEntry at h
  cases hcg : cacheGet (getCacheKeyA path) st.cache with
  | none => cases hnet : net path .get [] body <;> simp [hcg, hnet]
  | some e =>
    rw [hcg] at h
    by_cases hex : e.expiry > now
    · simp [hex] at h
    · cases hnet : net path .get [] body <;> simp [hcg, hex, hnet]

/-- C7: storing a value under a key with an expiry `t + ttl` makes the entry
visible exactly while `now < t + ttl`; in both wrappers a GET whose key has a
live entry returns the stored value with no network call and no state
change, and a GET without a live entry behaves as a fresh request (its
outcome and network attempt are those of the underlying fetch; for the
streaming-API wrapper, whose fetch is unconditional, the network is always
attempted). -/
theorem C7_cache_roundtrip (st : TopState) (stA : AriwaState) (now : Int) (net : Net)
    (pathT pathA : String) (body : Option JVal)
    (query : Option (List (String × String))) (v vA : JVal) :
    (∀ (cache : List (String × CacheEntry)) (k : String) (t ttl t2 : Int),
      liveEntry (cacheSet k ⟨v, t + ttl⟩ cache) k t2 =
        if t2 < t + ttl then some v else none) ∧
    (liveEntry st.cache (getCacheKeyTG pathT query) now = some v →
      fetchWithCacheTG st now net pathT .get body query = (.ok v, st, false)) ∧
    (liveEntry st.cache (getCacheKeyTG pathT query) now = none →
      (fetchWithCacheTG st now net pathT .get body query).1 =
        (fetchTG st now net pathT .get body query).1 ∧
      (fetchWithCacheTG st now net pathT .get body query).2.2 =
        (fetchTG st now net pathT .get body query).2.2) ∧
    (liveEntry stA.cache (getCacheKeyA pathA) now = some vA →
      fetchWithCacheA stA now net pathA .get body = (.ok vA, stA, false)) ∧
    (liveEntry stA.cache (getCacheKeyA pathA) now = none →
      (fetchWithCacheA stA now net pathA .get body).2.2 = true) :=
  ⟨fun cache k t ttl t2 => liveEntry_roundtrip cache k v t ttl t2,
    fun h => fetchWithCacheTG_hit st now net pathT body query v h,
    fun h => fetchWithCacheTG_miss st now net pathT body query h,
    fun h => fetchWithCacheA_hit stA now net pathA body vA h,
    fun h => fetchWithCacheA_miss stA now net pathA body h⟩

/-- Witness for C7: a live entry at time 10 with expiry 100 is served from
cache, and an empty-cache read goes to the network. -/
theorem C7_cache_roundtrip_witness :
    liveEntry [("/bots/9", ⟨JVal.num 1, 100⟩)] (getCacheKeyTG "/bots/9" none) 10 =
      some (.num 1) ∧
    fetchWithCacheTG
        { token := some "t", cacheTTL := 300000, cache := [("/bots/9", ⟨JVal.num 1, 100⟩)], rateLimitReset := none }
        10 (fun _ _ _ _ => .err "x") "/bots/9" .get none none =
      (.ok (.num 1),
        { token := some "t", cacheTTL := 300000, cache := [("/bots/9", ⟨JVal.num 1, 100⟩)], rateLimitReset := none },
        false) ∧
    liveEntry ([] : List (String × CacheEntry)) (getCacheKeyA "/entity") 10 = none ∧
    (fetchWithCacheA { token := "w", cacheTTL := 1000, cache := [] } 10
        (fun _ _ _ _ => .ok (.num 2)) "/entity" .get none).2.2 = true := by
  have h := C7_cache_roundtrip
    { token := some "t", cacheTTL := 300000, cache := [("/bots/9", ⟨JVal.num 1, 100⟩)], rateLimitReset := none }
    { token := "w", cacheTTL := 1000, cache := [] }
    10 (fun _ _ _ _ => .err "x") "/bots/9" "/entity" none none (.num 1) (.num 2)
  refine ⟨rfl, h.2.1 rfl, rfl, ?_⟩
  have h5 := (C7_cache_roundtrip
    { token := some "t", cacheTTL := 300000, cache := [("/bots/9", ⟨JVal.num 1, 100⟩)], rateLimitReset := none }
    { token := "w", cacheTTL := 1000, cache := [] }
    10 (fun _ _ _ _ => .ok (.num 2)) "/bots/9" "/entity" none none (.num 1) (.num 2)).2.2.2.2
  exact h5 rfl


theorem hasPre_self (p : List Char) : hasPre p p = true := by
  have h := hasPre_append p []
  simpa using h

theorem hasSuff_append (s x : List Char) : hasSuff s (x ++ s) = true := by
  unfold hasSuff
  rw [List.reverse_append]
  exact hasPre_append _ _

theorem containsSub_append (p l : List Char) : containsSub p (p ++ l) = true := by
  have h := hasPre_append p l
  cases hpl : p ++ l with
  | nil =>
    cases p with
    | nil => rfl
    | cons c cs => simp at hpl
  | cons c cs =>
    rw [hpl] at h
    simp [containsSub, h]

theorem takeRun_no_slash (l r : List Char) (hl : ∀ c ∈ l, c ≠ '/') :
    takeRun (l ++ '/' :: r) = (l, '/' :: r) := by
  induction l with
  | nil => simp [takeRun]
  | cons c cs ih =>
    have hc : c ≠ '/' := hl c (by simp)
    simp [takeRun, hc, ih (fun x hx => hl x (by simp [hx]))]

theorem matchBotsAt_exact (b : List Char) (hb : b ≠ []) (hsl : ∀ c ∈ b, c ≠ '/') :
    matchBotsAt ("/bots/".data ++ b ++ "/stats".data) = some b := by
  unfold matchBotsAt
  rw [List.append_assoc]
  rw [hasPre_append]
  have hdrop : ("/bots/".data ++ (b ++ "/stats".data)).drop 6 = b ++ "/stats".data := by
    have h6 : ("/bots/".data).length = 6 := rfl
    rw [← h6, List.drop_left]
  rw [hdrop]
  have hts : b ++ "/stats".data = b ++ '/' :: "stats".data := rfl
  rw [hts, takeRun_no_slash b ("stats".data) hsl]
  simp [hb, hasPre_self]

theorem searchBots_exact (b : List Char) (hb : b ≠ []) (hsl : ∀ c ∈ b, c ≠ '/') :
    searchBots ("/bots/".data ++ b ++ "/stats".data) = some b := by
  have hm : matchBotsAt ('/' :: ("bots/".data ++ b ++ "/stats".data)) = some b :=
    matchBotsAt_exact b hb hsl
  show searchBots ('/' :: ("bots/".data ++ b ++ "/stats".data)) = some b
  unfold searchBots
  rw [hm]

theorem matchUserAt_exact (u : List Char) (rest : List Char) (hu : u ≠ [])
    (hsl : ∀ c ∈ u, c ≠ '/') :
    matchUserAt ("/user/".data ++ u ++ '/' :: rest) = some u := by
  unfold matchUserAt
  rw [List.append_assoc]
  rw [hasPre_append]
  have hdrop : ("/user/".data ++ (u ++ '/' :: rest)).drop 6 = u ++ '/' :: rest := by
    have h6 : ("/user/".data).length = 6 := rfl
    rw [← h6, List.drop_left]
  rw [hdrop, takeRun_no_slash u rest hsl]
  simp [hu]

theorem searchUser_exact (u : List Char) (rest : List Char) (hu : u ≠ [])
    (hsl : ∀ c ∈ u, c ≠ '/') :
    searchUser ("/user/".data ++ u ++ '/' :: rest) = some u := by
  have hm : matchUserAt ('/' :: ("user/".data ++ u ++ '/' :: rest)) = some u :=
    matchUserAt_exact u rest hu hsl
  show searchUser ('/' :: ("user/".data ++ u ++ '/' :: rest)) = some u
  unfold searchUser
  rw [hm]

theorem cacheGet_none_of_not_mem (c : List (String × CacheEntry)) (k : String)
    (h : k ∉ c.map Prod.fst) : cacheGet k c = none := by
  induction c with
  | nil => rfl
  | cons p rest ih =>
    rw [List.map_cons, List.mem_cons] at h
    push_neg at h
    have h1 : p.1 ≠ k := fun he => h.1 he.symm
    simp [cacheGet, h1, ih h.2]

theorem cacheGet_cacheDel_self (c : List (String × CacheEntry)) (k : String)
    (hnd : (c.map Prod.fst).Nodup) : cacheGet k (cacheDel k c) = none := by
  induction c with
  | nil => rfl
  | cons p rest ih =>
    rw [List.map_cons, List.nodup_cons] at hnd
    by_cases hk : p.1 = k
    · subst hk
      simp only [cacheDel, if_pos rfl]
      exact cacheGet_none_of_not_mem rest p.1 hnd.1
    · simp [cacheDel, cacheGet, hk, ih hnd.2]

theorem cacheGet_cacheDel_other (c : List (String × CacheEntry)) (k k2 : String)
    (h : k ≠ k2) : cacheGet k (cacheDel k2 c) = cacheGet k c := by
  induction c with
  | nil => rfl
  | cons p rest ih =>
    by_cases h2 : p.1 = k2
    · subst h2
      have hne : p.1 ≠ k := fun he => h he.symm
      simp [cacheDel, cacheGet, hne]
    · by_cases hk : p.1 = k <;> simp [cacheDel, cacheGet, h2, hk, h, ih]

theorem mem_keys_cacheDel (c : List (String × CacheEntry)) (k x : String)
    (h : x ∈ (cacheDel k c).map Prod.fst) : x ∈ c.map Prod.fst := by
  induction c with
  | nil => exact h
  | cons p rest ih =>
    by_cases h2 : p.1 = k
    · rw [List.map_cons, List.mem_cons]
      right
      simpa [cacheDel, h2] using h
    · rw [List.map_cons, List.mem_cons]
      simp only [cacheDel, h2, if_false, List.map_cons, List.mem_cons] at h
      rcases h with h | h
      · exact Or.inl h
      · exact Or.inr (ih h)

theorem nodup_cacheDel (c : List (String × CacheEntry)) (k : String)
    (hnd : (c.map Prod.fst).Nodup) : ((cacheDel k c).map Prod.fst).Nodup := by
  induction c with
  | nil => exact hnd
  | cons p rest ih =>
    rw [List.map_cons, List.nodup_cons] at hnd
    by_cases h2 : p.1 = k
    · simpa [cacheDel, h2] using hnd.2
    · rw [show cacheDel k (p :: rest) = p :: cacheDel k rest from by simp [cacheDel, h2]]
      rw [List.map_cons, List.nodup_cons]
      exact ⟨fun hmem => hnd.1 (mem_keys_cacheDel rest k p.1 hmem), ih hnd.2⟩

theorem fetchTG_success (st : TopState) (now : Int) (net : Net) (path : String)
    (method : Method) (body : Option JVal) (query : Option (List (String × String)))
    (tok : String) (v : JVal)
    (htok : st.token = some tok) (htne : tok ≠ "") (hrl : st.rateLimitReset = none)
    (hnet : net path method (query.getD []) body = .ok v) :
    fetchTG st now net path method body query = (.ok v, st, true) := by
  unfold fetchTG
  rw [htok, hrl, hnet]
  simp [htne]

theorem fetchTG_attempts (st : TopState) (now : Int) (net : Net) (path : String)
    (method : Method) (body : Option JVal) (query : Option (List (String × String)))
    (tok : String)
    (htok : st.token = some tok) (htne : tok ≠ "") (hrl : st.rateLimitReset = none) :
    (fetchTG st now net path method body query).2.2 = true := by
  unfold fetchTG
  rw [htok, hrl]
  simp [htne]
  cases hnet : net path method (query.getD []) body with
  | ok v => simp [hnet]
  | err msg => by_cases h429 : containsSub "429".data msg.data <;> simp [hnet, h429]

theorem fetchWithCacheTG_mutate_fail (st : TopState) (now : Int) (net : Net) (path : String)
    (method : Method) (body : Option JVal) (query : Option (List (String × String)))
    (hm : method ≠ .get) (m : String) (st1 : TopState) (w : Bool)
    (hF : fetchTG st now net path method body query = (.error m, st1, w)) :
    fetchWithCacheTG st now net path method body query = (.error m, st1, w) := by
  unfold fetchWithCacheTG
  rw [hF]
  simp [hm]

theorem fetchWithCacheA_mutate_fail (st : AriwaState) (now : Int) (net : Net) (path : String)
    (method : Method) (body : Option JVal) (hm : method ≠ .get) (m : String)
    (hnet : net path method [] body = .err m) :
    fetchWithCacheA st now net path method body = (.error m, st, true) := by
  unfold fetchWithCacheA
  rw [hnet]
  simp [hm]

theorem fetchTG_cache_const (st : TopState) (now : Int) (net : Net) (path : String)
    (method : Method) (body : Option JVal) (query : Option (List (String × String))) :
    ((fetchTG st now net path method body query).2.1).cache = st.cache := by
  unfold fetchTG
  cases htok : st.token with
  | none => rfl
  | some tok =>
    by_cases ht : tok = ""
    · simp [ht]
    · simp only [ht, if_false]
      cases hrl : st.rateLimitReset with
      | some r =>
        by_cases hlim : (r != 0 && decide (now < r)) = true
        · simp [hlim]
        · simp only [hlim, if_false]
          cases hnet : net path method (query.getD []) body with
          | ok v => simp [hnet]
          | err msg => by_cases h429 : containsSub "429".data msg.data <;> simp [hnet, h429]
      | none =>
        simp only []
        cases hnet : net path method (query.getD []) body with
        | ok v => simp [hnet]
        | err msg => by_cases h429 : containsSub "429".data msg.data <;> simp [hnet, h429]

theorem postStats_success (st : TopState) (now : Int) (net : Net) (botId : String)
    (stats : JVal) (tok : String) (v : JVal)
    (htok : st.token = some tok) (htne : tok ≠ "") (hrl : st.rateLimitReset = none)
    (hnet : net ("/bots/" ++ botId ++ "/stats") .post [] (some stats) = .ok v)
    (hb : botId.data ≠ []) (hsl : ∀ c ∈ botId.data, c ≠ '/') :
    postStats st now net botId stats =
      (.ok v,
        { st with cache := cacheDel ("/bots/" ++ botId) (cacheDel ("/bots/" ++ botId ++ "/stats") st.cache) },
        true) := by
  unfold postStats
  have hf := fetchTG_success st now net ("/bots/" ++ botId ++ "/stats") .post (some stats)
    none tok v htok htne hrl hnet
  unfold fetchWithCacheTG
  rw [hf]
  have hsuff : hasSuff "/stats".data ("/bots/" ++ botId ++ "/stats").data = true := by
    have h1 : ("/bots/" ++ botId ++ "/stats").data = ("/bots/" ++ botId).data ++ "/stats".data :=
      String.data_append _ _
    rw [h1]
    exact hasSuff_append _ _
  have hsearch : searchBots ("/bots/" ++ botId ++ "/stats").data = some botId.data := by
    have h1 : ("/bots/" ++ botId ++ "/stats").data =
        "/bots/".data ++ botId.data ++ "/stats".data := by
      rw [String.data_append, String.data_append]
    rw [h1]
    exact searchBots_exact botId.data hb hsl
  simp at hsuff hsearch
  simp [hsuff, hsearch, invalidateTG, getCacheKeyTG]

theorem setUserReminders_success (st : AriwaState) (now : Int) (net : Net) (userId : String)
    (b : Bool) (v : JVal)
    (hnet : net ("/user/" ++ userId ++ "/reminders") .patch []
        (some (.obj [("enable", .bool b)])) = .ok v)
    (hu : userId.data ≠ []) (hsl : ∀ c ∈ userId.data, c ≠ '/') :
    setUserReminders st now net userId (some b) =
      (.ok v, { st with cache := cacheDel ("/user/" ++ userId) st.cache }, true) := by
  show fetchWithCacheA st now net ("/user/" ++ userId ++ "/reminders") .patch
      (some (.obj [("enable", .bool b)])) =
    (.ok v, { st with cache := cacheDel ("/user/" ++ userId) st.cache }, true)
  unfold fetchWithCacheA
  rw [hnet]
  have hcont : containsSub "/user/".data ("/user/" ++ userId ++ "/reminders").data = true := by
    have h1 : ("/user/" ++ userId ++ "/reminders").data =
        "/user/".data ++ (userId.data ++ "/reminders".data) := by
      rw [String.data_append, String.data_append, List.append_assoc]
    rw [h1]
    exact containsSub_append _ _
  have hsuff : hasSuff "/reminders".data ("/user/" ++ userId ++ "/reminders").data = true := by
    have h1 : ("/user/" ++ userId ++ "/reminders").data =
        ("/user/" ++ userId).data ++ "/reminders".data := String.data_append _ _
    rw [h1]
    exact hasSuff_append _ _
  have hsearch : searchUser ("/user/" ++ userId ++ "/reminders").data = some userId.data := by
    have h1 : ("/user/" ++ userId ++ "/reminders").data =
        "/user/".data ++ userId.data ++ '/' :: "reminders".data := by
      rw [String.data_append, String.data_append]
    rw [h1]
    exact searchUser_exact userId.data ("reminders".data) hu hsl
  simp at hcont hsuff hsearch
  simp [hcont, hsuff, hsearch, invalidateA, getCacheKeyA]

/-- C8: a successful `postStats(botId, ...)` removes exactly the cache
entries for `/bots/{botId}/stats` and `/bots/{botId}` and leaves every other
entry unchanged, after which a GET for either invalidated resource goes to
the network; a failed `postStats` leaves the cache untouched; a successful
`setUserReminders(userId, _)` removes exactly the `/user/{userId}` entry
(other entries unchanged, subsequent GET hits the network); a failed one
invalidates nothing.  Identifiers are assumed nonempty and slash-free (the
shape of real IDs; a slash would defeat the extraction regex), and cache
keys unique (the JS `Map` invariant). -/
theorem C8_mutation_invalidation (st : TopState) (stA : AriwaState) (now now2 : Int)
    (net : Net) (botId userId : String) (stats : JVal) (tok : String) (v vA : JVal) (b : Bool)
    (htok : st.token = some tok) (htne : tok ≠ "") (hrl : st.rateLimitReset = none)
    (hnd : (st.cache.map Prod.fst).Nodup) (hndA : (stA.cache.map Prod.fst).Nodup)
    (hb : botId.data ≠ []) (hbsl : ∀ c ∈ botId.data, c ≠ '/')
    (hu : userId.data ≠ []) (husl : ∀ c ∈ userId.data, c ≠ '/') :
    (net ("/bots/" ++ botId ++ "/stats") .post [] (some stats) = .ok v →
      postStats st now net botId stats =
        (.ok v,
          { st with cache := cacheDel ("/bots/" ++ botId) (cacheDel ("/bots/" ++ botId ++ "/stats") st.cache) },
          true) ∧
      cacheGet ("/bots/" ++ botId ++ "/stats")
        ((postStats st now net botId stats).2.1).cache = none ∧
      cacheGet ("/bots/" ++ botId) ((postStats st now net botId stats).2.1).cache = none ∧
      (∀ k, k ≠ "/bots/" ++ botId ++ "/stats" → k ≠ "/bots/" ++ botId →
        cacheGet k ((postStats st now net botId stats).2.1).cache = cacheGet k st.cache) ∧
      (getStats (postStats st now net botId stats).2.1 now2 net botId).2.2 = true ∧
      (getBot (postStats st now net botId stats).2.1 now2 net botId).2.2 = true) ∧
    (∀ m st1 w,
      fetchTG st now net ("/bots/" ++ botId ++ "/stats") .post (some stats) none =
        (.error m, st1, w) →
      postStats st now net botId stats = (.error m, st1, w) ∧ st1.cache = st.cache) ∧
    (net ("/user/" ++ userId ++ "/reminders") .patch [] (some (.obj [("enable", .bool b)])) =
        .ok vA →
      setUserReminders stA now net userId (some b) =
        (.ok vA, { stA with cache := cacheDel ("/user/" ++ userId) stA.cache }, true) ∧
      cacheGet ("/user/" ++ userId)
        ((setUserReminders stA now net userId (some b)).2.1).cache = none ∧
      (∀ k, k ≠ "/user/" ++ userId →
        cacheGet k ((setUserReminders stA now net userId (some b)).2.1).cache =
          cacheGet k stA.cache) ∧
      (getUser (setUserReminders stA now net userId (some b)).2.1 now2 net userId).2.2 = true) ∧
    (∀ m,
      net ("/user/" ++ userId ++ "/reminders") .patch [] (some (.obj [("enable", .bool b)])) =
        .err m →
      setUserReminders stA now net userId (some b) = (.error m, stA, true)) := by
  have hk12 : ("/bots/" ++ botId ++ "/stats" : String) ≠ "/bots/" ++ botId := by
    intro he
    have h2 := congrArg String.length he
    rw [String.length_append] at h2
    have h6 : ("/stats" : String).length = 6 := rfl
    rw [h6] at h2
    omega
  refine ⟨?_, ?_, ?_, ?_⟩
  · intro hnet
    have hps := postStats_success st now net botId stats tok v htok htne hrl hnet hb hbsl
    have hc2 : cacheGet ("/bots/" ++ botId ++ "/stats")
        (cacheDel ("/bots/" ++ botId) (cacheDel ("/bots/" ++ botId ++ "/stats") st.cache)) =
        none := by
      rw [cacheGet_cacheDel_other _ _ _ hk12]
      exact cacheGet_cacheDel_self _ _ hnd
    have hc3 : cacheGet ("/bots/" ++ botId)
        (cacheDel ("/bots/" ++ botId) (cacheDel ("/bots/" ++ botId ++ "/stats") st.cache)) =
        none :=
      cacheGet_cacheDel_self _ _ (nodup_cacheDel _ _ hnd)
    rw [hps]
    refine ⟨rfl, hc2, hc3, ?_, ?_, ?_⟩
    · intro k hne1 hne2
      rw [cacheGet_cacheDel_other _ _ _ hne2, cacheGet_cacheDel_other _ _ _ hne1]
    · show (fetchWithCacheTG
          { st with cache := cacheDel ("/bots/" ++ botId) (cacheDel ("/bots/" ++ botId ++ "/stats") st.cache) }
          now2 net ("/bots/" ++ botId ++ "/stats") .get none none).2.2 = true
      have hle : liveEntry
          (cacheDel ("/bots/" ++ botId) (cacheDel ("/bots/" ++ botId ++ "/stats") st.cache))
          (getCacheKeyTG ("/bots/" ++ botId ++ "/stats") none) now2 = none := by
        show liveEntry _ ("/bots/" ++ botId ++ "/stats") now2 = none
        unfold liveEntry
        rw [hc2]
      rw [(fetchWithCacheTG_miss _ now2 net _ none none hle).2]
      exact fetchTG_attempts _ now2 net _ .get none none tok htok htne hrl
    · show (fetchWithCacheTG
          { st with cache := cacheDel ("/bots/" ++ botId) (cacheDel ("/bots/" ++ botId ++ "/stats") st.cache) }
          now2 net ("/bots/" ++ botId) .get none none).2.2 = true
      have hle : liveEntry
          (cacheDel ("/bots/" ++ botId) (cacheDel ("/bots/" ++ botId ++ "/stats") st.cache))
          (getCacheKeyTG ("/bots/" ++ botId) none) now2 = none := by
        show liveEntry _ ("/bots/" ++ botId) now2 = none
        unfold liveEntry
        rw [hc3]
      rw [(fetchWithCacheTG_miss _ now2 net _ none none hle).2]
      exact fetchTG_attempts _ now2 net _ .get none none tok htok htne hrl
  · intro m st1 w hF
    constructor
    · show fetchWithCacheTG st now net ("/bots/" ++ botId ++ "/stats") .post (some stats) none =
        (.error m, st1, w)
      exact fetchWithCacheTG_mutate_fail st now net _ .post (some stats) none
        (by decide) m st1 w hF
    · have hcc := fetchTG_cache_const st now net ("/bots/" ++ botId ++ "/stats") .post
        (some stats) none
      rw [hF] at hcc
      exact hcc
  · intro hnetA
    have hss := setUserReminders_success stA now net userId b vA hnetA hu husl
    have hcA : cacheGet ("/user/" ++ userId) (cacheDel ("/user/" ++ userId) stA.cache) = none :=
      cacheGet_cacheDel_self _ _ hndA
    rw [hss]
    refine ⟨rfl, hcA, ?_, ?_⟩
    · intro k hne
      rw [cacheGet_cacheDel_other _ _ _ hne]
    · show (fetchWithCacheA { stA with cache := cacheDel ("/user/" ++ userId) stA.cache }
          now2 net ("/user/" ++ userId) .get none).2.2 = true
      have hle : liveEntry (cacheDel ("/user/" ++ userId) stA.cache)
          (getCacheKeyA ("/user/" ++ userId)) now2 = none := by
        show liveEntry _ ("/user/" ++ userId) now2 = none
        unfold liveEntry
        rw [hcA]
      exact fetchWithCacheA_miss _ now2 net _ none hle
  · intro m hnetA
    show fetchWithCacheA stA now net ("/user/" ++ userId ++ "/reminders") .patch
        (some (.obj [("enable", .bool b)])) = (.error m, stA, true)
    exact fetchWithCacheA_mutate_fail stA now net _ .patch _ (by decide) m hnetA



/-- Witness for C8 on concrete caches, bot id 1 and user id 7. -/
theorem C8_mutation_invalidation_witness :
    cacheGet ("/bots/" ++ "1" ++ "/stats")
      ((postStats
          ⟨some "t", 1000,
            [("/bots/1/stats", ⟨JVal.num 1, 100⟩), ("/bots/1", ⟨JVal.num 2, 100⟩),
              ("/bots/2", ⟨JVal.num 3, 100⟩)], none⟩
          10 (fun _ _ _ _ => NetRes.ok (JVal.num 0)) "1" (JVal.num 9)).2.1).cache = none ∧
    cacheGet "/bots/2"
      ((postStats
          ⟨some "t", 1000,
            [("/bots/1/stats", ⟨JVal.num 1, 100⟩), ("/bots/1", ⟨JVal.num 2, 100⟩),
              ("/bots/2", ⟨JVal.num 3, 100⟩)], none⟩
          10 (fun _ _ _ _ => NetRes.ok (JVal.num 0)) "1" (JVal.num 9)).2.1).cache =
      cacheGet "/bots/2"
        [("/bots/1/stats", ⟨JVal.num 1, 100⟩), ("/bots/1", ⟨JVal.num 2, 100⟩),
          ("/bots/2", ⟨JVal.num 3, 100⟩)] ∧
    (getStats
        (postStats
          ⟨some "t", 1000,
            [("/bots/1/stats", ⟨JVal.num 1, 100⟩), ("/bots/1", ⟨JVal.num 2, 100⟩),
              ("/bots/2", ⟨JVal.num 3, 100⟩)], none⟩
          10 (fun _ _ _ _ => NetRes.ok (JVal.num 0)) "1" (JVal.num 9)).2.1
        20 (fun _ _ _ _ => NetRes.ok (JVal.num 0)) "1").2.2 = true ∧
    cacheGet ("/user/" ++ "7")
      ((setUserReminders ⟨"w", 1000, [("/user/7", ⟨JVal.num 4, 100⟩)]⟩ 10
          (fun _ _ _ _ => NetRes.ok (JVal.num 0)) "7" (some true)).2.1).cache = none := by
  have h := C8_mutation_invalidation
    ⟨some "t", 1000,
      [("/bots/1/stats", ⟨JVal.num 1, 100⟩), ("/bots/1", ⟨JVal.num 2, 100⟩),
        ("/bots/2", ⟨JVal.num 3, 100⟩)], none⟩
    ⟨"w", 1000, [("/user/7", ⟨JVal.num 4, 100⟩)]⟩
    10 20 (fun _ _ _ _ => NetRes.ok (JVal.num 0)) "1" "7" (JVal.num 9) "t"
    (JVal.num 0) (JVal.num 0) true
    rfl (by decide) rfl (by decide) (by decide) (by decide) (by decide) (by decide) (by decide)
  have h1 := h.1 rfl
  have h3 := h.2.2.1 rfl
  exact ⟨h1.2.1, h1.2.2.2.1 "/bots/2" (by decide) (by decide), h1.2.2.2.2.1, h3.2.1⟩

/-- C9 (counterexample): the stored marker is overwritten by whatever truthy
`ts` arrives, so a frame carrying a smaller marker regresses it below a
previously observed value. -/
theorem C9_marker_regresses :
    runMarker false none [some (.obj [("ts", .num 5)])] = some (.num 5) ∧
    runMarker false none [some (.obj [("ts", .num 5)]), some (.obj [("ts", .num 3)])] =
      some (.num 3) ∧
    (3 : Int) < 5 := ⟨rfl, rfl, by norm_num⟩

/-- C9 (amended): the in-memory marker after a message sequence equals the
most recently observed truthy `ts` (last write wins, the initial marker when
none was observed); consequently it never regresses below a previously
observed value whenever the service-supplied markers are non-decreasing; and
within one message's handling the in-memory assignment always precedes the
durable-write action. -/
theorem C9_marker_last_write (hp : Bool) :
    (∀ mem msgs, runMarker hp mem msgs = (lastOf (obsTs msgs)).or mem) ∧
    (∀ msgs ints l1 l2 (a b : Int),
      msgs = l1 ++ l2 →
      obsTs msgs = ints.map JVal.num →
      List.Chain' (· ≤ ·) ints →
      runMarker hp none l1 = some (.num a) →
      runMarker hp none msgs = some (.num b) →
      a ≤ b) ∧
    (∀ msg v, Action.persist v ∈ handleMessage hp msg →
      ∃ pre suf, handleMessage hp msg = pre ++ .persist v :: suf ∧
        Action.setMem v ∈ pre) := by
  refine ⟨fun mem msgs => runMarker_eq hp msgs mem, ?_, ?_⟩
  · intro msgs ints l1 l2 a b hsplit hnum hchain h1 h2
    rw [runMarker_eq, Option.or_none] at h1 h2
    have ha : JVal.num a ∈ obsTs l1 := lastOf_mem _ _ h1
    have ha2 : JVal.num a ∈ obsTs msgs := by
      rw [hsplit, obsTs, List.filterMap_append]
      exact List.mem_append_left _ ha
    rw [hnum] at ha2
    obtain ⟨a2, ha3, ha4⟩ := List.mem_map.mp ha2
    have haa : a2 = a := by injection ha4
    subst haa
    have hlast : lastOf ints = some b := by
      rw [hnum, lastOf_map_num] at h2
      cases hli : lastOf ints with
      | none => rw [hli] at h2; simp at h2
      | some z =>
        rw [hli] at h2
        simp at h2
        rw [h2]
    exact chain_le_lastOf ints hchain a2 ha3 b hlast
  · intro msg v h
    match msg with
    | none => simp [handleMessage] at h
    | some .null => simp [handleMessage] at h
    | some .undefined => simp [handleMessage] at h
    | some (.bool b) => exact persist_in_shape _ _ hp _ v h
    | some (.num n) => exact persist_in_shape _ _ hp _ v h
    | some (.str s) => exact persist_in_shape _ _ hp _ v h
    | some (.arr xs) => exact persist_in_shape _ _ hp _ v h
    | some (.obj fs) => exact persist_in_shape _ _ hp _ v h

/-- Witness for C9 on a two-frame session with non-decreasing markers 5, 7. -/
theorem C9_marker_last_write_witness :
    ([some (JVal.obj [("ts", JVal.num 5)]), some (JVal.obj [("ts", JVal.num 7)])] =
      [some (JVal.obj [("ts", JVal.num 5)])] ++ [some (JVal.obj [("ts", JVal.num 7)])]) ∧
    obsTs [some (JVal.obj [("ts", JVal.num 5)]), some (JVal.obj [("ts", JVal.num 7)])] =
      ([5, 7] : List Int).map JVal.num ∧
    List.Chain' (· ≤ ·) ([5, 7] : List Int) ∧
    runMarker true none [some (JVal.obj [("ts", JVal.num 5)])] = some (.num 5) ∧
    runMarker true none
        [some (JVal.obj [("ts", JVal.num 5)]), some (JVal.obj [("ts", JVal.num 7)])] =
      some (.num 7) ∧
    (5 : Int) ≤ 7 := by
  refine ⟨rfl, rfl, ?_, rfl, rfl, ?_⟩
  · simp [List.chain'_cons]
  · exact (C9_marker_last_write true).2.1
      [some (JVal.obj [("ts", JVal.num 5)]), some (JVal.obj [("ts", JVal.num 7)])]
      [5, 7]
      [some (JVal.obj [("ts", JVal.num 5)])]
      [some (JVal.obj [("ts", JVal.num 7)])]
      5 7 rfl rfl (by simp [List.chain'_cons]) rfl rfl

/-- C2 (code bug): after a non-normal close has scheduled a reconnect, calling
`disconnect()` resolves (the socket is closed, so the early branch runs) yet
leaves the pending reconnect timer alive and the intentional-close flag
unset; when the timer fires, `_connect` opens a new connection even though
`disconnect()` was already called. -/
theorem C2_reconnect_fires_after_disconnect :
    (run (initState true none)
      [.connectCall, .openEvt, .closeEvt 1006, .disconnectCall]).pendingTimers = 1 ∧
    (run (initState true none)
      [.connectCall, .openEvt, .closeEvt 1006, .disconnectCall]).intentionalClose = false ∧
    (run (initState true none)
      [.connectCall, .openEvt, .closeEvt 1006, .disconnectCall]).connectCount = 1 ∧
    (run (initState true none)
      [.connectCall, .openEvt, .closeEvt 1006, .disconnectCall, .timerFire]).connectCount = 2 := by
  decide

/-- C3: a close event with code 1000 never schedules a reconnect, whatever
the auto-reconnect flag, the intentional-close flag and the attempt counter;
for any other code a reconnect is scheduled exactly when auto-reconnect is
enabled, the close was not intentional and the attempt counter is below the
configured maximum. -/
theorem C3_close_1000_never_reconnects (st : CState) (code : Nat) :
    (step st (.closeEvt 1000)).pendingTimers = st.pendingTimers ∧
    (code ≠ 1000 →
      ((step st (.closeEvt code)).pendingTimers = st.pendingTimers + 1 ↔
        st.autoReconnect = true ∧ st.intentionalClose = false ∧
        underMax st.reconnectAttempts st.maxReconnectAttempts = true)) := by
  constructor
  · simp [step]
  · intro hc
    rcases hA : st.autoReconnect <;> rcases hI : st.intentionalClose <;>
      rcases hU : underMax st.reconnectAttempts st.maxReconnectAttempts <;>
        simp [step, doReconnect, hA, hI, hU, hc]

/-- Witness for C3 at a concrete non-1000 close on a fresh auto-reconnecting
client. -/
theorem C3_witness_close_1006 :
    (1006 : Nat) ≠ 1000 ∧
    (step (initState true none) (.closeEvt 1006)).pendingTimers =
      (initState true none).pendingTimers + 1 := by
  refine ⟨by decide, ?_⟩
  exact ((C3_close_1000_never_reconnects (initState true none) 1006).2 (by decide)).mpr
    ⟨rfl, rfl, rfl⟩

/-- C4: `reconnect` increments the attempt counter before computing the
delay; the delay equals `min(initialDelay * 1.5^(n-1), maxDelay) + j` for the
incremented attempt number `n` and jitter sample `j ∈ [0, 1000]`, so it lies
in `[m, m + 1000]` for `m = min(initialDelay * 1.5^(n-1), maxDelay)` and in
`[0, maxDelay + 1000]`; and the open handler resets the attempt counter to
zero. -/
theorem C4_backoff_delay (attempts : Nat) (base maxDelay j : ℚ) (st : CState)
    (hb : 0 ≤ base) (hm : 0 ≤ maxDelay) (hj0 : 0 ≤ j) (hj1 : j ≤ 1000)
    (hw : st.wsExists = true) :
    (reconnectComp attempts base maxDelay j).1 = attempts + 1 ∧
    (reconnectComp attempts base maxDelay j).2 =
      min (base * (3 / 2) ^ ((attempts + 1) - 1)) maxDelay + j ∧
    min (base * (3 / 2) ^ attempts) maxDelay ≤ (reconnectComp attempts base maxDelay j).2 ∧
    (reconnectComp attempts base maxDelay j).2 ≤
      min (base * (3 / 2) ^ attempts) maxDelay + 1000 ∧
    0 ≤ (reconnectComp attempts base maxDelay j).2 ∧
    (reconnectComp attempts base maxDelay j).2 ≤ maxDelay + 1000 ∧
    (step st .openEvt).reconnectAttempts = 0 := by
  have hpow : (0:ℚ) ≤ base * (3 / 2) ^ attempts :=
    mul_nonneg hb (pow_nonneg (by norm_num) _)
  have hmin0 : (0:ℚ) ≤ min (base * (3 / 2) ^ attempts) maxDelay := le_min hpow hm
  have hminM : min (base * (3 / 2) ^ attempts) maxDelay ≤ maxDelay := min_le_right _ _
  have hd : (reconnectComp attempts base maxDelay j).2 =
      min (base * (3 / 2) ^ attempts) maxDelay + j := by
    simp [reconnectComp, backoffDelay]
  refine ⟨rfl, by simpa using hd, ?_, ?_, ?_, ?_, by simp [step, hw]⟩
  · rw [hd]; linarith
  · rw [hd]; linarith
  · rw [hd]; linarith
  · rw [hd]; linarith

/-- Witness for C4 at the default options (`initialDelay = 1000`,
`maxDelay = 30000`), first attempt, jitter sample 500, on a client that has
just called `_connect`. -/
theorem C4_backoff_delay_witness :
    (0:ℚ) ≤ 1000 ∧ (0:ℚ) ≤ 30000 ∧ (0:ℚ) ≤ 500 ∧ (500:ℚ) ≤ 1000 ∧
    (step (initState true none) .connectCall).wsExists = true ∧
    (reconnectComp 0 1000 30000 500).1 = 0 + 1 ∧
    (reconnectComp 0 1000 30000 500).2 ≤ 30000 + 1000 := by
  have h := C4_backoff_delay 0 1000 30000 500 (step (initState true none) .connectCall)
    (by norm_num) (by norm_num) (by norm_num) (by norm_num) rfl
  exact ⟨by norm_num, by norm_num, by norm_num, by norm_num, rfl, h.1, h.2.2.2.2.2.1⟩

end Ariwa
